import Mathlib

/-!
# Verification of the compdiff round-execution engine

A shallow embedding of `src/src/lib.rs` of the `compdiff` differential-testing
harness, together with theorems settling the specified properties of its
consensus classifier (`test_mismatch`), round executor (`run_round`),
bounded process runner (`execute_prog_input_limits` and friends) and
invocation resolver (`get_command`).

Modelling conventions:
* Rust `&Path` values are modelled as `String`s (paths are only compared and
  carried around, never parsed, except by `get_command` whose
  `Path::extension` call is modelled as an oracle parameter).
* The behaviour of external programs is an oracle `World` mapping a program
  path and the text fed to its stdin to the process's wall-clock duration and
  its final `Output` (exit status, stdout, stderr).  `String::from_utf8` of
  the captured streams is modelled as the identity (the oracle produces text).
* Process side effects are made observable as an explicit `Trace` of
  spawn/wait events; every function of the source that touches a process
  returns its result paired with the trace it produces, composed in source
  order.  Rust iterator adaptors are lazy: a chain
  `it.map(f).map(g).collect()` runs `f` and `g` on each element in turn, so
  its trace interleaves per element; the embedding of `execute_progs_input`
  reflects that evaluation order.
* The `process_control` crate used for limited runs is external to the
  repository; its observable contract (per the spec: a process still running
  at the wall-clock deadline is terminated and reported as `None`; a
  memory-limit kill surfaces as an ordinary non-success `Output`) is baked
  into `start_prog_input_limits`, which records the limits it was given in
  its spawn event.
-/

namespace Compdiff

/-- Captured result of a finished process: exit-status success flag, the
display form of the status (`status.to_string()` in the source), and the
decoded stdout/stderr streams.  Mirrors `std::process::Output`. -/
structure Output where
  success : Bool
  status : String
  stdout : String
  stderr : String
deriving DecidableEq

/-- Wall-clock duration plus final output of one program execution. -/
structure Behavior where
  duration : ℚ
  out : Output

/-- Oracle describing every external program: path ↦ stdin text ↦ behaviour.
The generator is run with no stdin (`.output()` in the source), modelled as
input `""`. -/
abbrev World := String → String → Behavior

/-- Observable process events: `spawn` records the wall-clock and memory
limits the process was started under (`none` = unlimited), `wait` marks the
point where the harness blocks on that process's completion. -/
inductive Event where
  | spawn (path : String) (tlimit : Option ℚ) (mlimit : Option Nat)
  | wait (path : String)
deriving DecidableEq

abbrev Trace := List Event

/-- `pub enum Failure` of the source: an ordinary program failure carrying
the path, the status display string and the captured stderr, or a
time-limit kill carrying the path. -/
inductive Failure where
  | Prog (path status stderr : String)
  | TimeLimit (path : String)
deriving DecidableEq

/-- `pub type Success<'a> = (&'a Path, String)` — path and captured stdout. -/
abbrev Success := String × String

/-- `pub type Execution<'a> = Result<Success<'a>, Failure<'a>>`. -/
abbrev Execution := Except Failure Success

/-- `x.err()` of a Rust `Result`. -/
def errOf : Execution → Option Failure
  | .error e => some e
  | .ok _ => none

/-- `x.is_err()` of a Rust `Result`. -/
def isErr : Execution → Bool
  | .error _ => true
  | .ok _ => false

/-- `execute_prog`: run a program with no stdin and no limits (`.output()`),
then classify: any stderr text or a non-success status is a `Failure::Prog`,
otherwise `Ok((path, stdout))`. -/
def execute_prog (w : World) (path : String) : Execution × Trace :=
  let gen := (w path "").out
  (if gen.stderr ≠ "" ∨ gen.success = false then
      .error (.Prog path gen.status gen.stderr)
    else .ok (path, gen.stdout),
   [.spawn path none none, .wait path])

/-- Command-line configuration (`pub struct Cli` of `src/src/cli.rs`),
restricted to the fields the round engine reads.  `time_limit` is seconds
(`f64` in the source, modelled as `ℚ`), `memory_limit` is kilobytes. -/
structure Cli where
  generator : String
  program : String
  reference : List String
  rounds : Option Nat
  time_limit : Option ℚ
  memory_limit : Option Nat
  verbose : Bool

/-- `generate_input`: run the generator program. -/
def generate_input (w : World) (args : Cli) : Execution × Trace :=
  execute_prog w args.generator

/-- A spawned child process: the path it was started from together with the
output it will eventually deliver.  `start_prog_input` spawns the process
with piped stdin/stdout/stderr and writes the whole input to its stdin
before returning, so the child's behaviour is fixed at this point. -/
abbrev Child := String × Output

/-- `start_prog_input`: spawn (unlimited) and feed the input. -/
def start_prog_input (w : World) (path input : String) : Child × Trace :=
  ((path, (w path input).out), [.spawn path none none])

/-- `Child::wait_with_output`: block until the child exits, returning its
captured output. -/
def wait_with_output (c : Child) : Output × Trace :=
  (c.2, [.wait c.1])

/-- `output_to_execution`: classify a finished process's `Output` exactly as
`execute_prog` does — non-empty stderr or non-success status is a failure. -/
def output_to_execution (out : Output) (path : String) : Execution :=
  if out.stderr ≠ "" ∨ out.success = false then
    .error (.Prog path out.status out.stderr)
  else .ok (path, out.stdout)

/-- `execute_prog_input`: start (unlimited), wait, classify. -/
def execute_prog_input (w : World) (path input : String) : Execution × Trace :=
  let c := start_prog_input w path input
  let o := wait_with_output c.1
  (output_to_execution o.1 path, c.2 ++ o.2)

/-- `execute_progs_input`: the source chains lazy iterator adaptors
`paths.map(start).map(wait).map(classify).collect()`, which evaluates the
whole chain on each path before moving to the next; so each program is
spawned, then awaited, then classified, one path at a time, in order. -/
def execute_progs_input (w : World) (paths : List String) (input : String) :
    List Execution × Trace :=
  match paths with
  | [] => ([], [])
  | p :: ps =>
    let c := start_prog_input w p input
    let o := wait_with_output c.1
    let rest := execute_progs_input w ps input
    (output_to_execution o.1 p :: rest.1, c.2 ++ o.2 ++ rest.2)

/-- `start_prog_input_limits`: spawn with piped streams, write the input,
then wait under the given limits through the `process_control` crate:
`None` when the wall-clock limit expired and the process was terminated,
otherwise the process's `Output` (a memory-limit kill shows up inside that
`Output` as an ordinary non-success status).  The spawn event records which
limits were applied. -/
def start_prog_input_limits (w : World) (path input : String)
    (tlimit : Option ℚ) (mlimit : Option Nat) : Option Output × Trace :=
  let b := w path input
  ((match tlimit with
    | some t => if t < b.duration then none else some b.out
    | none => some b.out),
   [.spawn path tlimit mlimit, .wait path])

/-- `execute_prog_input_limits`: a timed-out run is `Failure::TimeLimit`;
otherwise the output is classified by the same stderr/status test as
`output_to_execution` (the source inlines it). -/
def execute_prog_input_limits (w : World) (path input : String)
    (tlimit : Option ℚ) (mlimit : Option Nat) : Execution × Trace :=
  let s := start_prog_input_limits w path input tlimit mlimit
  ((match s.1 with
    | none => .error (.TimeLimit path)
    | some out =>
      if out.stderr ≠ "" ∨ out.success = false then
        .error (.Prog path out.status out.stderr)
      else .ok (path, out.stdout)),
   s.2)

/-- `pub enum Round` of the source. -/
inductive Round where
  | GeneratorFail (f : Failure)
  | ReferenceFails (input : String) (fails : List Failure)
  | ProgramFail (input : String) (f : Failure)
  | Success (input : String) (prog : Success) (refs : List Success)
deriving DecidableEq

/-- The candidate execution inside `run_round`: when no time limit is
configured the candidate runs through the unlimited `execute_prog_input`
path; otherwise through `execute_prog_input_limits` with the configured
time limit (seconds, `Duration::from_secs_f64` preserves the value) and the
memory limit converted from kilobytes to bytes (`x * 1000`). -/
def candidate_execution (w : World) (args : Cli) (input : String) :
    Execution × Trace :=
  if args.time_limit.isNone then
    execute_prog_input w args.program input
  else
    execute_prog_input_limits w args.program input
      args.time_limit (args.memory_limit.map (· * 1000))

/-- `x.ok()` extraction used to model `map(unwrap_unchecked)` on a list of
executions that are all `Ok` (the source only reaches it under that guard). -/
def okOf : Execution → Option Success
  | .ok s => some s
  | .error _ => none

/-- `run_round`: generator first (short-circuit on failure), then the
candidate (with limits when configured, short-circuit on failure), then the
references (unlimited, via `execute_progs_input`). -/
def run_round (w : World) (args : Cli) : Round × Trace :=
  let inp := generate_input w args
  match inp.1 with
  | .error x => (.GeneratorFail x, inp.2)
  | .ok i =>
    let prg := candidate_execution w args i.2
    match prg.1 with
    | .error x => (.ProgramFail i.2 x, inp.2 ++ prg.2)
    | .ok prq =>
      let refs := execute_progs_input w args.reference i.2
      (if refs.1.any isErr then
        .ReferenceFails i.2 (refs.1.filterMap errOf)
      else
        .Success i.2 prq (refs.1.filterMap okOf),
       inp.2 ++ prg.2 ++ refs.2)

/-- `pub enum Mismatch` of the source. -/
inductive Mismatch where
  | AllMatch
  | RefMismatch (refs : List Success)
  | ProgMismatch (prog : Success) (refs : List Success)
deriving DecidableEq

/-- The sentinel string of `test_mismatch` (`let bad = String::from("\0\0\0\t@")`),
which the source's comment asserts can never be a program output. -/
def bad : String := "\x00\x00\x00\t@"

/-- Rust's `Iterator::reduce`: left fold using the first element as the
initial accumulator, `None` on an empty iterator. -/
def reduceOpt (f : α → α → α) : List α → Option α
  | [] => none
  | a :: l => some (l.foldl f a)

/-- `test_mismatch`: all-match check first; otherwise reduce the outputs of
the references that disagree with the candidate, collapsing any two unequal
neighbours to the sentinel `bad`, and compare the reduce result with `bad`
by string value.  The source `unwrap`s the reduce, which panics on an empty
list; the embedding returns `none` at that point instead. -/
def test_mismatch (prog : Success) (refs : List Success) : Option Mismatch :=
  if refs.all (fun x => x.2 == prog.2) then some .AllMatch
  else
    match reduceOpt (fun a i => if a = i then a else bad)
        ((refs.map (fun x => x.2)).filter (fun x => x ≠ prog.2)) with
    | none => none
    | some r =>
      if r = bad then some (.RefMismatch refs)
      else some (.ProgMismatch prog (refs.filter (fun x => x.2 ≠ prog.2)))

/-- The failure condition the runner applies to every finished process:
any diagnostic text, or a non-success exit status. -/
def outFails (o : Output) : Prop := o.stderr ≠ "" ∨ o.success = false

instance (o : Output) : Decidable (outFails o) := by
  unfold outFails; infer_instance

/-- The generator's output in a given world and configuration. -/
def genOut (w : World) (args : Cli) : Output := (w args.generator "").out

/-- The trace of a strictly sequential launch-then-await pipeline: each
program is spawned (unlimited) and awaited before the next is spawned. -/
def perProgTrace : List String → Trace
  | [] => []
  | p :: ps => [Event.spawn p none none, Event.wait p] ++ perProgTrace ps

/-- Two classifier results agree up to reordering of the carried reference
lists: same constructor, same candidate, carried lists permutations of one
another. -/
def MismatchEquiv : Option Mismatch → Option Mismatch → Prop
  | some .AllMatch, some .AllMatch => True
  | some (.RefMismatch a), some (.RefMismatch b) => a.Perm b
  | some (.ProgMismatch p a), some (.ProgMismatch q b) => p = q ∧ a.Perm b
  | none, none => True
  | _, _ => False

/-- A process output with a success status and clean stderr. -/
def okOut : Output := ⟨true, "exit status: 0", "x", ""⟩

/-- A world where every program succeeds with output `"x"` in one second. -/
def wOK : World := fun _ _ => ⟨1, okOut⟩

/-- A world whose every program fails with diagnostics on stderr. -/
def wBad : World := fun _ _ => ⟨1, ⟨false, "exit status: 1", "", "boom"⟩⟩

/-- A world where only the program at path `"cand"` fails (cleanly on
stderr but with a failing status). -/
def wCandBad : World := fun p _ =>
  if p = "cand" then ⟨1, ⟨false, "exit status: 1", "", ""⟩⟩ else ⟨1, okOut⟩

/-- A configuration with one reference and no limits. -/
def args0 : Cli := ⟨"gen", "cand", ["ref1"], none, none, none, false⟩

/-- A configuration with two references and no limits. -/
def args2r : Cli := ⟨"gen", "cand", ["ref1", "ref2"], none, none, none, false⟩

/-- A configuration with a memory limit of 5 kB but no time limit. -/
def args3 : Cli := ⟨"gen", "cand", ["ref1"], none, none, some 5, false⟩

/-- A configuration with a 1-second time limit and a 2 kB memory limit. -/
def args6 : Cli := ⟨"gen", "cand", ["ref1"], none, some 1, some 2, false⟩

/-- A world where the program at path `"cand"` takes 5 seconds (all
programs succeed with output `"x"`). -/
def wSlowCand : World := fun p _ =>
  if p = "cand" then ⟨5, okOut⟩ else ⟨1, okOut⟩

/-- A world where the program at path `"ref1"` takes 100 seconds (all
programs succeed with output `"x"`). -/
def wSlowRef : World := fun p _ =>
  if p = "ref1" then ⟨100, okOut⟩ else ⟨0, okOut⟩

/-- Is this event a process launch? -/
def isSpawn : Event → Bool
  | .spawn _ _ _ => true
  | .wait _ => false

/-- The program path an event concerns. -/
def pathOf : Event → String
  | .spawn p _ _ => p
  | .wait p => p

/-- The events of a trace that concern the given participants. -/
def participantEvents (t : Trace) (parts : List String) : Trace :=
  t.filter (fun e => pathOf e ∈ parts)

/-- No launch event occurs in the trace. -/
def spawnFree (t : Trace) : Bool := t.all (fun e => !isSpawn e)

/-- The property claimed of a round's participant events: every launch is
issued before the executor blocks on any result, i.e. no launch occurs
after the first wait. -/
def allLaunchedBeforeAnyWait : Trace → Bool
  | [] => true
  | .wait _ :: rest => spawnFree rest
  | .spawn _ _ _ :: rest => allLaunchedBeforeAnyWait rest

/-!
## Pipe model for the bounded runner's input/output organisation

`start_prog_input` (and `start_prog_input_limits`) spawns the child with
piped stdin/stdout/stderr and then calls `stdin.write_all(input)` on the
calling thread before returning; the output pipes are first drained later,
by `wait_with_output`, after the entire input write has completed.  The
following small-step system makes that blocking discipline explicit so the
spec's no-deadlock property can be settled.  OS pipes hold at most `cap`
bytes.  The parent transitions come from the source: it may write the next
input byte only while the whole input is not yet written and the stdin pipe
has room (`write_all` blocks on a full pipe), and it may drain an output
byte only after the whole input has been written (`wait_with_output` runs
only after `start_prog_input` returns).  The child transitions model the
program the spec quantifies over: it first emits `m` output bytes and only
then starts reading its input (`n` bytes total). -/

/-- Pipe capacity `cap`, input size `n`, and the number `m` of output bytes
the child produces before it starts reading its input. -/
structure PipeCfg where
  cap : Nat
  n : Nat
  m : Nat
deriving DecidableEq

/-- Bytes written/consumed so far on each side, and current pipe fills. -/
structure PipeState where
  written : Nat
  inBuf : Nat
  consumed : Nat
  outWritten : Nat
  outBuf : Nat
  drained : Nat
deriving DecidableEq

/-- One scheduling step of the parent (`start_prog_input` +
`wait_with_output`) and the child running concurrently. -/
inductive PipeStep (c : PipeCfg) : PipeState → PipeState → Prop
  | parentWrite (s : PipeState) : s.written < c.n → s.inBuf < c.cap →
      PipeStep c s { s with written := s.written + 1, inBuf := s.inBuf + 1 }
  | parentDrain (s : PipeState) : s.written = c.n → 0 < s.outBuf →
      PipeStep c s { s with drained := s.drained + 1, outBuf := s.outBuf - 1 }
  | childWrite (s : PipeState) : s.outWritten < c.m → s.outBuf < c.cap →
      PipeStep c s { s with outWritten := s.outWritten + 1, outBuf := s.outBuf + 1 }
  | childRead (s : PipeState) : s.outWritten = c.m → s.consumed < c.n → 0 < s.inBuf →
      PipeStep c s { s with consumed := s.consumed + 1, inBuf := s.inBuf - 1 }

/-- A pipe of capacity 1, an input of 2 bytes (larger than the pipe), and a
child that emits 2 output bytes before reading. -/
def deadCfg : PipeCfg := ⟨1, 2, 2⟩

/-- The state where the parent has filled the stdin pipe, the child has
filled the stdout pipe, and nothing has been consumed or drained. -/
def deadState : PipeState := ⟨1, 1, 0, 1, 1, 0⟩

/-- A resolved invocation: executable, argument vector, working directory
(mirrors what the source builds on a `std::process::Command`). -/
structure Command where
  program : String
  args : List String
  cwd : Option String
deriving DecidableEq

/-- `get_exe_command`: the path itself is directly runnable. -/
def get_exe_command (path : String) : Command := ⟨path, [], none⟩

/-- `get_python_command`: search the ordered interpreter names on the
system path (`which::which`, modelled by the oracle `which`), take the
first hit as the interpreter, run it from the current directory with the
script path as argument; error if no interpreter exists. -/
def get_python_command (which : String → Option String) (cwd path : String) :
    Except String Command :=
  match ["python", "python3", "python"].findSome? which with
  | none => .error "cannot find a python intepreter!"
  | some pyint => .ok ⟨pyint, [path], some cwd⟩

/-- `get_command`: dispatch on the path's extension (`Path::extension`,
modelled by the oracle `extension`): `py` scripts go through the
interpreter search, `exe` or no extension is directly runnable, anything
else is an unsupported program type.  The paired trace is the process
events resolution produces — none: resolution only builds a `Command`. -/
def get_command (extension which : String → Option String) (cwd path : String) :
    Except String Command × Trace :=
  ((match extension path with
    | none => .ok (get_exe_command path)
    | some x =>
      if x = "py" then get_python_command which cwd path
      else if x = "exe" then .ok (get_exe_command path)
      else .error ("unsupported file type " ++ x)),
   [])

/-- An extension oracle marking every path a Python script. -/
def extPy : String → Option String := fun _ => some "py"

/-- An extension oracle marking every path extension-less. -/
def extNone : String → Option String := fun _ => none

/-- An extension oracle marking every path a C++ source file. -/
def extCpp : String → Option String := fun _ => some "cpp"

/-- A search path containing a `python` binary. -/
def whichSome : String → Option String :=
  fun s => if s = "python" then some "/usr/bin/python" else none

/-- A search path containing no interpreter at all. -/
def whichNone : String → Option String := fun _ => none

/-- `execute_progs_input` classifies each program's output in order and its
trace interleaves each program's spawn with its wait. -/
lemma execute_progs_input_spec (w : World) (ps : List String) (input : String) :
    (execute_progs_input w ps input).1
        = ps.map (fun p => output_to_execution (w p input).out p)
    ∧ (execute_progs_input w ps input).2 = perProgTrace ps := by
  induction ps with
  | nil => exact ⟨rfl, rfl⟩
  | cons p ps ih =>
    simp only [execute_progs_input, start_prog_input, wait_with_output,
      perProgTrace, List.map_cons]
    exact ⟨by rw [ih.1], by rw [ih.2]; rfl⟩

/-- `run_round` when the generator fails: the round is a `GeneratorFail`
and the trace holds the generator's spawn and wait only. -/
lemma run_round_genfail (w : World) (args : Cli)
    (hgen : outFails (genOut w args)) :
    run_round w args
      = (.GeneratorFail (.Prog args.generator (genOut w args).status
            (genOut w args).stderr),
         [.spawn args.generator none none, .wait args.generator]) := by
  have hgen' : (w args.generator "").out.stderr ≠ ""
      ∨ (w args.generator "").out.success = false := hgen
  simp only [run_round, generate_input, execute_prog, genOut]
  rw [if_pos hgen']

/-- `run_round` when the generator succeeds: the round proceeds with the
generator's stdout as the input. -/
lemma run_round_genok (w : World) (args : Cli)
    (hgen : ¬ outFails (genOut w args)) :
    run_round w args
      = (let prg := candidate_execution w args (genOut w args).stdout
         match prg.1 with
         | .error x => (.ProgramFail (genOut w args).stdout x,
             [.spawn args.generator none none, .wait args.generator] ++ prg.2)
         | .ok prq =>
           let refs := execute_progs_input w args.reference (genOut w args).stdout
           (if refs.1.any isErr then
              .ReferenceFails (genOut w args).stdout (refs.1.filterMap errOf)
            else
              .Success (genOut w args).stdout prq (refs.1.filterMap okOf),
            [.spawn args.generator none none, .wait args.generator] ++ prg.2 ++ refs.2)) := by
  have hgen' : ¬ ((w args.generator "").out.stderr ≠ ""
      ∨ (w args.generator "").out.success = false) := hgen
  simp only [run_round, generate_input, execute_prog, genOut]
  rw [if_neg hgen']

/-- A successfully classified output. -/
lemma output_to_execution_ok {o : Output} (p : String) (h : ¬ outFails o) :
    output_to_execution o p = .ok (p, o.stdout) := by
  have h' : ¬ (o.stderr ≠ "" ∨ o.success = false) := h
  unfold output_to_execution
  rw [if_neg h']

/-- A failing classified output. -/
lemma output_to_execution_err {o : Output} (p : String) (h : outFails o) :
    output_to_execution o p = .error (.Prog p o.status o.stderr) := by
  have h' : o.stderr ≠ "" ∨ o.success = false := h
  unfold output_to_execution
  rw [if_pos h']

/-- `filterMap` over a list on which the partial function is everywhere
defined is a `map`. -/
lemma filterMap_all_some {α β : Type} (f : α → Option β) (g : α → β)
    (l : List α) (h : ∀ x ∈ l, f x = some (g x)) : l.filterMap f = l.map g := by
  induction l with
  | nil => rfl
  | cons a t ih =>
    rw [List.filterMap_cons, h a (List.mem_cons_self a t), List.map_cons,
      ih (fun x hx => h x (List.mem_cons_of_mem _ hx))]

/-- `run_round` when the generator succeeds and the candidate fails. -/
lemma run_round_candfail (w : World) (args : Cli) (f : Failure)
    (hgen : ¬ outFails (genOut w args))
    (hcand : (candidate_execution w args (genOut w args).stdout).1
        = Except.error f) :
    run_round w args
      = (.ProgramFail (genOut w args).stdout f,
         [.spawn args.generator none none, .wait args.generator]
           ++ (candidate_execution w args (genOut w args).stdout).2) := by
  rw [run_round_genok w args hgen]
  simp only [hcand]

/-- `run_round` when the generator and the candidate both succeed. -/
lemma run_round_candok (w : World) (args : Cli) (prq : Success)
    (hgen : ¬ outFails (genOut w args))
    (hcand : (candidate_execution w args (genOut w args).stdout).1
        = Except.ok prq) :
    run_round w args
      = (let refs := execute_progs_input w args.reference (genOut w args).stdout
         (if refs.1.any isErr then
            .ReferenceFails (genOut w args).stdout (refs.1.filterMap errOf)
          else
            .Success (genOut w args).stdout prq (refs.1.filterMap okOf),
          [.spawn args.generator none none, .wait args.generator]
            ++ (candidate_execution w args (genOut w args).stdout).2
            ++ refs.2)) := by
  rw [run_round_genok w args hgen]
  simp only [hcand]

/-- `run_round` when everything succeeds: the round is a `Round.Success`
carrying each reference's stdout in order, and the trace is the generator's
spawn/wait, then the candidate's spawn/wait, then each reference's
spawn/wait in sequence. -/
lemma run_round_all_ok (w : World) (args : Cli) (prq : Success)
    (hgen : ¬ outFails (genOut w args))
    (hcand : (candidate_execution w args (genOut w args).stdout).1
        = Except.ok prq)
    (hrefs : ∀ r ∈ args.reference, ¬ outFails (w r (genOut w args).stdout).out) :
    run_round w args
      = (.Success (genOut w args).stdout prq
           (args.reference.map (fun r => (r, (w r (genOut w args).stdout).out.stdout))),
         [.spawn args.generator none none, .wait args.generator]
           ++ (candidate_execution w args (genOut w args).stdout).2
           ++ perProgTrace args.reference) := by
  rw [run_round_candok w args prq hgen hcand]
  have hres := execute_progs_input_spec w args.reference (genOut w args).stdout
  have hok : ∀ r ∈ args.reference,
      output_to_execution (w r (genOut w args).stdout).out r
        = .ok (r, (w r (genOut w args).stdout).out.stdout) :=
    fun r hr => output_to_execution_ok r (hrefs r hr)
  have hany : (execute_progs_input w args.reference (genOut w args).stdout).1.any
      isErr = false := by
    rw [hres.1, ← Bool.not_eq_true, List.any_eq_true]
    push_neg
    intro e he
    obtain ⟨r, hr, rfl⟩ := List.mem_map.mp he
    rw [hok r hr]
    simp [isErr]
  have hfm : (execute_progs_input w args.reference (genOut w args).stdout).1.filterMap
      okOf = args.reference.map (fun r => (r, (w r (genOut w args).stdout).out.stdout)) := by
    rw [hres.1, List.filterMap_map]
    exact filterMap_all_some _ _ _ (fun r hr => by
      simp only [Function.comp]
      rw [hok r hr]
      rfl)
  simp only [hany, hfm, hres.2]
  rfl

/-- C5: a `Success` execution outcome arises exactly when the exit status is
success and the diagnostic stream is empty; every executed program is
classified by that one test — `execute_prog` computes `output_to_execution`
of the generator-style run, and a limited run that did not time out is
classified the same way. -/
theorem execution_success_iff (out : Output) (path : String) :
    ((∃ s, output_to_execution out path = Except.ok s)
        ↔ (out.success = true ∧ out.stderr = ""))
    ∧ (∀ (w : World) (p : String),
        (execute_prog w p).1 = output_to_execution (w p "").out p)
    ∧ (∀ (w : World) (p i : String) (tl : Option ℚ) (ml : Option Nat) (o : Output),
        (start_prog_input_limits w p i tl ml).1 = some o →
        (execute_prog_input_limits w p i tl ml).1 = output_to_execution o p) := by
  refine ⟨?_, fun w p => rfl, fun w p i tl ml o h => ?_⟩
  · unfold output_to_execution
    by_cases hc : out.stderr ≠ "" ∨ out.success = false
    · rw [if_pos hc]
      constructor
      · rintro ⟨s, hs⟩
        exact absurd hs (by simp)
      · rintro ⟨h1, h2⟩
        rcases hc with h | h
        · exact absurd h2 h
        · rw [h1] at h
          exact absurd h (by simp)
    · rw [if_neg hc]
      push_neg at hc
      exact ⟨fun _ => ⟨Bool.ne_false_iff.mp hc.2, hc.1⟩, fun _ => ⟨_, rfl⟩⟩
  · simp only [execute_prog_input_limits, h]
    rfl

/-- Witness for C5's limited-run conjunct at a concrete non-timed-out run. -/
theorem execution_success_iff_witness :
    (execute_prog_input_limits wOK "p" "i" (some 5) none).1
      = output_to_execution okOut "p" :=
  (execution_success_iff okOut "p").2.2 wOK "p" "i" (some 5) none okOut (by decide)

/-- C8: round short-circuiting: a failing generator makes the round a
`GeneratorFail` with a trace containing no candidate or reference spawn
(only the generator's own spawn and wait); a failing candidate makes the
round a `ProgramFail` carrying the generated input and the candidate's
failure, and never a `Round.Success`. -/
theorem run_round_short_circuit (w : World) (args : Cli) :
    (outFails (genOut w args) →
      (run_round w args).1 = Round.GeneratorFail (Failure.Prog args.generator
          (genOut w args).status (genOut w args).stderr)
      ∧ (run_round w args).2 = [Event.spawn args.generator none none,
          Event.wait args.generator])
    ∧ (∀ f : Failure, ¬ outFails (genOut w args) →
        (candidate_execution w args (genOut w args).stdout).1 = Except.error f →
        (run_round w args).1 = Round.ProgramFail (genOut w args).stdout f
        ∧ ∀ i p r, (run_round w args).1 ≠ Round.Success i p r) := by
  constructor
  · intro hgen
    rw [run_round_genfail w args hgen]
    exact ⟨rfl, rfl⟩
  · intro f hgen hcand
    rw [run_round_candfail w args f hgen hcand]
    exact ⟨rfl, fun i p r h => Round.noConfusion h⟩

/-- Witness for C8: a concrete failing generator and, separately, a
concrete failing candidate. -/
theorem run_round_short_circuit_witness :
    ((run_round wBad args0).1 = Round.GeneratorFail (Failure.Prog args0.generator
        (genOut wBad args0).status (genOut wBad args0).stderr)
      ∧ (run_round wBad args0).2 = [Event.spawn args0.generator none none,
          Event.wait args0.generator])
    ∧ ((run_round wCandBad args0).1
        = Round.ProgramFail (genOut wCandBad args0).stdout
            (Failure.Prog "cand" "exit status: 1" "")
      ∧ ∀ i p r, (run_round wCandBad args0).1 ≠ Round.Success i p r) :=
  ⟨(run_round_short_circuit wBad args0).1 (by decide),
   (run_round_short_circuit wCandBad args0).2
     (Failure.Prog "cand" "exit status: 1" "") (by decide) rfl⟩

/-- A left fold of the classifier's collapsing function: the result is the
initial accumulator when every element equals it, and the sentinel `bad`
otherwise (once the accumulator becomes `bad` it stays `bad`). -/
lemma foldl_bad_char (rest : List String) (a : String) :
    rest.foldl (fun x i => if x = i then x else bad) a
      = if rest.all (fun x => x == a) then a else bad := by
  induction rest generalizing a with
  | nil => simp
  | cons i r ih =>
    rw [List.foldl_cons]
    by_cases h : a = i
    · subst h
      rw [if_pos rfl, ih, List.all_cons]
      simp
    · rw [if_neg h, ih, List.all_cons]
      have hi : (i == a) = false := by
        simp only [beq_eq_false_iff_ne, ne_eq]
        exact fun hh => h hh.symm
      rw [hi]
      simp

/-- When at least one reference output disagrees with the candidate's, the
filtered list the classifier reduces over is non-empty. -/
lemma disagree_filter_ne_nil (prog : Success) (refs : List Success)
    (hA : ¬ refs.all (fun x => x.2 == prog.2) = true) :
    (refs.map (fun x => x.2)).filter (fun x => x ≠ prog.2) ≠ [] := by
  rw [List.all_eq_true] at hA
  push_neg at hA
  obtain ⟨x, hx, hxe⟩ := hA
  have hxne : x.2 ≠ prog.2 := by simpa using hxe
  have hmem : x.2 ∈ (refs.map (fun x => x.2)).filter (fun x => x ≠ prog.2) := by
    rw [List.mem_filter]
    exact ⟨List.mem_map_of_mem _ hx, by simpa using hxne⟩
  exact List.ne_nil_of_mem hmem

/-- The reduce of the classifier yields the sentinel exactly when the
disagreeing outputs do not form a single consistent non-sentinel answer. -/
lemma reduce_bad_iff (a : String) (rest : List String) :
    (reduceOpt (fun x i => if x = i then x else bad) (a :: rest) = some bad
      ↔ ¬ ∃ v, v ≠ bad ∧ ∀ x ∈ a :: rest, x = v) := by
  rw [reduceOpt, Option.some_inj, foldl_bad_char]
  by_cases h : rest.all (fun x => x == a) = true
  · rw [if_pos h, List.all_eq_true] at *
    constructor
    · rintro hab ⟨v, hv, hall⟩
      have ha : a = v := hall a (List.mem_cons_self a rest)
      exact hv (ha ▸ hab)
    · intro hne
      by_contra hab
      refine hne ⟨a, hab, fun x hx => ?_⟩
      rcases List.mem_cons.mp hx with h1 | h2
      · exact h1
      · simpa using h x h2
  · rw [if_neg h]
    constructor
    · rintro - ⟨v, hv, hall⟩
      apply h
      rw [List.all_eq_true]
      intro x hx
      have hxv := hall x (List.mem_cons_of_mem _ hx)
      have hav := hall a (List.mem_cons_self a rest)
      simp [beq_iff_eq, hxv, hav]
    · intro _
      rfl

/-- A permutation-invariant `Bool`-valued `all`. -/
lemma perm_all_eq {α : Type} {l l' : List α} (h : l.Perm l') (p : α → Bool) :
    l.all p = l'.all p :=
  Bool.eq_iff_iff.mpr (by simp [List.all_eq_true, h.mem_iff])

/-- C7: the classifier is order-independent: permuting the reference list
yields the same verdict constructor, with the carried candidate output
unchanged and the carried reference outputs permuted accordingly. -/
theorem test_mismatch_perm (prog : Success) (refs refs' : List Success)
    (h : refs.Perm refs') :
    MismatchEquiv (test_mismatch prog refs) (test_mismatch prog refs') := by
  have hall := perm_all_eq h (fun x => x.2 == prog.2)
  unfold test_mismatch
  by_cases hA : refs.all (fun x => x.2 == prog.2) = true
  · rw [if_pos hA, if_pos (hall ▸ hA)]
    simp [MismatchEquiv]
  · have hA' : ¬ refs'.all (fun x => x.2 == prog.2) = true := by
      rw [← hall]; exact hA
    rw [if_neg hA, if_neg hA']
    have hperm : ((refs.map (fun x => x.2)).filter (fun x => x ≠ prog.2)).Perm
        ((refs'.map (fun x => x.2)).filter (fun x => x ≠ prog.2)) :=
      (h.map _).filter _
    have hdne := disagree_filter_ne_nil prog refs hA
    obtain ⟨a, rest, hcons⟩ := List.exists_cons_of_ne_nil hdne
    have hdne' := disagree_filter_ne_nil prog refs' hA'
    obtain ⟨a', rest', hcons'⟩ := List.exists_cons_of_ne_nil hdne'
    rw [hcons, hcons'] at hperm ⊢
    have hiff : ((rest.foldl (fun x i => if x = i then x else bad) a) = bad)
        ↔ ((rest'.foldl (fun x i => if x = i then x else bad) a') = bad) := by
      have h1 := reduce_bad_iff a rest
      have h2 := reduce_bad_iff a' rest'
      rw [reduceOpt, Option.some_inj] at h1 h2
      rw [h1, h2]
      apply not_congr
      apply exists_congr
      intro v
      apply and_congr_right
      intro _
      exact ⟨fun hv x hx => hv x (hperm.mem_iff.mpr hx),
             fun hv x hx => hv x (hperm.mem_iff.mp hx)⟩
    simp only [reduceOpt]
    by_cases hb : (rest.foldl (fun x i => if x = i then x else bad) a) = bad
    · rw [if_pos hb, if_pos (hiff.mp hb)]
      simpa [MismatchEquiv] using h
    · rw [if_neg hb, if_neg (fun hb' => hb (hiff.mpr hb'))]
      exact ⟨rfl, h.filter _⟩

/-- Witness for C7 at a concrete swap of two references. -/
theorem test_mismatch_perm_witness :
    MismatchEquiv (test_mismatch ("c", "a") [("r1", "b"), ("r2", "c")])
      (test_mismatch ("c", "a") [("r2", "c"), ("r1", "b")]) :=
  test_mismatch_perm ("c", "a") [("r1", "b"), ("r2", "c")]
    [("r2", "c"), ("r1", "b")] (by decide)

/-- C10: the classifier is total: it never reaches the panicking `unwrap`
(modelled as `none`), and on an empty reference list the vacuously true
all-equal check returns `AllMatch`. -/
theorem test_mismatch_total (prog : Success) (refs : List Success) :
    (test_mismatch prog refs).isSome = true
    ∧ test_mismatch prog [] = some Mismatch.AllMatch := by
  refine ⟨?_, by simp [test_mismatch]⟩
  unfold test_mismatch
  by_cases hA : refs.all (fun x => x.2 == prog.2) = true
  · rw [if_pos hA]
    rfl
  · rw [if_neg hA]
    obtain ⟨a, rest, hcons⟩ :=
      List.exists_cons_of_ne_nil (disagree_filter_ne_nil prog refs hA)
    rw [hcons]
    simp only [reduceOpt]
    split <;> rfl

/-- C1 fails on the code: a single disagreeing reference whose output
happens to equal the sentinel string is a mutually consistent alternative
answer (the spec demands `ProgMismatch`), yet the classifier's value
comparison of the reduce result against the sentinel misfires and returns
`RefMismatch`. -/
theorem test_mismatch_sentinel_collision :
    (([(("ref", bad) : Success)].filter (fun x => x.2 ≠ ("cand", "a").2)).map
        (fun x => x.2) = [bad])
    ∧ test_mismatch ("cand", "a") [("ref", bad)]
        = some (Mismatch.RefMismatch [("ref", bad)]) := by
  constructor <;> rfl

/-- With a time limit configured, the candidate runs through the limited
branch with the memory limit converted from kilobytes to bytes. -/
lemma candidate_execution_some_tl (w : World) (args : Cli) (input : String)
    (t : ℚ) (htl : args.time_limit = some t) :
    candidate_execution w args input
      = execute_prog_input_limits w args.program input (some t)
          (args.memory_limit.map (· * 1000)) := by
  unfold candidate_execution
  rw [htl]
  simp

/-- A limited run whose duration exceeds the time limit is a time-limit
failure. -/
lemma execute_prog_input_limits_timeout (w : World) (p input : String)
    (t : ℚ) (ml : Option Nat) (h : t < (w p input).duration) :
    execute_prog_input_limits w p input (some t) ml
      = (.error (.TimeLimit p), [.spawn p (some t) ml, .wait p]) := by
  unfold execute_prog_input_limits start_prog_input_limits
  simp only [if_pos h]

/-- A limited run within the time limit whose output is clean succeeds. -/
lemma execute_prog_input_limits_ok (w : World) (p input : String)
    (t : ℚ) (ml : Option Nat) (h : ¬ t < (w p input).duration)
    (ho : ¬ outFails (w p input).out) :
    execute_prog_input_limits w p input (some t) ml
      = (.ok (p, (w p input).out.stdout), [.spawn p (some t) ml, .wait p]) := by
  have ho' : ¬ ((w p input).out.stderr ≠ "" ∨ (w p input).out.success = false) := ho
  unfold execute_prog_input_limits start_prog_input_limits
  simp only [if_neg h, if_neg ho']

/-- C6: with a wall-clock limit configured, the generator and every
reference are spawned with no limits at all while the candidate alone is
spawned under the configured limits; a candidate outlasting the limit is
reported as a time-limit failure, whereas references are awaited regardless
of their durations and their outputs enter the round result. -/
theorem limit_asymmetry (w : World) (args : Cli) (t : ℚ)
    (htl : args.time_limit = some t)
    (hgen : ¬ outFails (genOut w args)) :
    (t < (w args.program (genOut w args).stdout).duration →
      (run_round w args).1
        = Round.ProgramFail (genOut w args).stdout (Failure.TimeLimit args.program))
    ∧ (¬ t < (w args.program (genOut w args).stdout).duration →
       ¬ outFails (w args.program (genOut w args).stdout).out →
       ((run_round w args).2
          = [Event.spawn args.generator none none, Event.wait args.generator,
             Event.spawn args.program (some t) (args.memory_limit.map (· * 1000)),
             Event.wait args.program] ++ perProgTrace args.reference)
       ∧ ((∀ r ∈ args.reference, ¬ outFails (w r (genOut w args).stdout).out) →
          (run_round w args).1
            = Round.Success (genOut w args).stdout
                (args.program, (w args.program (genOut w args).stdout).out.stdout)
                (args.reference.map
                  (fun r => (r, (w r (genOut w args).stdout).out.stdout))))) := by
  have hce := candidate_execution_some_tl w args (genOut w args).stdout t htl
  constructor
  · intro hdur
    have hto := execute_prog_input_limits_timeout w args.program
      (genOut w args).stdout t (args.memory_limit.map (· * 1000)) hdur
    have hcand : (candidate_execution w args (genOut w args).stdout).1
        = Except.error (Failure.TimeLimit args.program) := by
      rw [hce, hto]
    rw [run_round_candfail w args _ hgen hcand]
  · intro hdur hco
    have hok := execute_prog_input_limits_ok w args.program
      (genOut w args).stdout t (args.memory_limit.map (· * 1000)) hdur hco
    have hcand : (candidate_execution w args (genOut w args).stdout).1
        = Except.ok (args.program, (w args.program (genOut w args).stdout).out.stdout) := by
      rw [hce, hok]
    have hctrace : (candidate_execution w args (genOut w args).stdout).2
        = [Event.spawn args.program (some t) (args.memory_limit.map (· * 1000)),
           Event.wait args.program] := by
      rw [hce, hok]
    constructor
    · have htr := congrArg Prod.snd (run_round_candok w args _ hgen hcand)
      rw [htr]
      show [Event.spawn args.generator none none, Event.wait args.generator]
          ++ (candidate_execution w args (genOut w args).stdout).2
          ++ (execute_progs_input w args.reference (genOut w args).stdout).2 = _
      rw [hctrace,
        (execute_progs_input_spec w args.reference (genOut w args).stdout).2]
      rfl
    · intro hrefs
      rw [run_round_all_ok w args _ hgen hcand hrefs]

/-- Witness for C6: a 5-second candidate under a 1-second limit times out,
while a 100-second reference under the same configuration still delivers
its output into the round result. -/
theorem limit_asymmetry_witness :
    ((run_round wSlowCand args6).1
        = Round.ProgramFail (genOut wSlowCand args6).stdout (Failure.TimeLimit "cand"))
    ∧ (run_round wSlowRef args6).1
        = Round.Success (genOut wSlowRef args6).stdout ("cand", "x") [("ref1", "x")]
    ∧ (1 : ℚ) < (wSlowRef "ref1" (genOut wSlowRef args6).stdout).duration :=
  ⟨(limit_asymmetry wSlowCand args6 1 rfl (by decide)).1 (by decide),
   ((limit_asymmetry wSlowRef args6 1 rfl (by decide)).2 (by decide) (by decide)).2
     (by decide),
   by decide⟩

/-- C3 fails on the code: with a resident-memory limit configured but no
wall-clock limit, `run_round` takes the unlimited `execute_prog_input`
branch for the candidate, so the candidate is spawned with no memory
ceiling at all. -/
theorem memory_limit_ignored_without_time_limit :
    args3.memory_limit = some 5
    ∧ args3.time_limit = none
    ∧ (run_round wOK args3).2
        = [Event.spawn "gen" none none, Event.wait "gen",
           Event.spawn "cand" none none, Event.wait "cand",
           Event.spawn "ref1" none none, Event.wait "ref1"] :=
  ⟨rfl, rfl, rfl⟩

/-- C2 fails on the code: in a fully successful round the executor waits on
the candidate before launching any reference and waits on each reference
before launching the next, so the participants' launches are not all issued
before the first blocking wait — neither for candidate-plus-references nor
even among the references alone. -/
theorem launches_interleaved_with_waits :
    (run_round wOK args0).2
      = [Event.spawn "gen" none none, Event.wait "gen",
         Event.spawn "cand" none none, Event.wait "cand",
         Event.spawn "ref1" none none, Event.wait "ref1"]
    ∧ allLaunchedBeforeAnyWait
        (participantEvents (run_round wOK args0).2 (args0.program :: args0.reference))
        = false
    ∧ allLaunchedBeforeAnyWait
        (participantEvents (run_round wOK args2r).2 args2r.reference) = false :=
  ⟨rfl, rfl, rfl⟩

/-- C4 fails on the code: with pipe capacity 1, an input of 2 bytes and a
child that emits 2 output bytes before reading, the blocking discipline of
`start_prog_input` (all input written by the caller before any output is
drained) reaches a state where the parent is blocked on a full stdin pipe
and the child on a full stdout pipe — a deadlock, with the input never
consumed, although the input exceeds the pipe capacity and the child
produces output before consuming its input exactly as the claim's scenario
demands. -/
theorem start_prog_input_deadlock :
    deadCfg.cap < deadCfg.n
    ∧ Relation.ReflTransGen (PipeStep deadCfg) ⟨0, 0, 0, 0, 0, 0⟩ deadState
    ∧ (∀ s', ¬ PipeStep deadCfg deadState s')
    ∧ deadState.consumed < deadCfg.n := by
  refine ⟨by decide, ?_, ?_, by decide⟩
  · have h1 : PipeStep deadCfg ⟨0, 0, 0, 0, 0, 0⟩ ⟨1, 1, 0, 0, 0, 0⟩ :=
      PipeStep.parentWrite ⟨0, 0, 0, 0, 0, 0⟩ (by decide) (by decide)
    have h2 : PipeStep deadCfg ⟨1, 1, 0, 0, 0, 0⟩ deadState :=
      PipeStep.childWrite ⟨1, 1, 0, 0, 0, 0⟩ (by decide) (by decide)
    exact Relation.ReflTransGen.head h1 (Relation.ReflTransGen.single h2)
  · intro s' h
    cases h with
    | parentWrite h1 h2 => exact absurd h2 (by decide)
    | parentDrain h1 h2 => exact absurd h1 (by decide)
    | childWrite h1 h2 => exact absurd h2 (by decide)
    | childRead h1 h2 h3 => exact absurd h1 (by decide)

/-- C9: resolution of a program path: a `py` extension searches the
ordered interpreter list (`python` first, then `python3`) on the system
path and errors when none is found; no extension or an `exe` extension is
the path itself; any other extension errors naming the extension; and
resolution's trace is empty — it spawns no process. -/
theorem get_command_resolution (extension which : String → Option String)
    (cwd path : String) :
    (extension path = some "py" →
      (∀ pyint, which "python" = some pyint →
        (get_command extension which cwd path).1 = .ok ⟨pyint, [path], some cwd⟩)
      ∧ (∀ pyint, which "python" = none → which "python3" = some pyint →
        (get_command extension which cwd path).1 = .ok ⟨pyint, [path], some cwd⟩)
      ∧ ((∀ c ∈ ["python", "python3", "python"], which c = none) →
        (get_command extension which cwd path).1
          = .error "cannot find a python intepreter!"))
    ∧ ((extension path = none ∨ extension path = some "exe") →
        (get_command extension which cwd path).1 = .ok ⟨path, [], none⟩)
    ∧ (∀ x, extension path = some x → x ≠ "py" → x ≠ "exe" →
        (get_command extension which cwd path).1
          = .error ("unsupported file type " ++ x))
    ∧ (get_command extension which cwd path).2 = [] := by
  refine ⟨fun hpy => ⟨fun pyint hp => ?_, fun pyint hp hp3 => ?_, fun hnone => ?_⟩,
    fun hor => ?_, fun x hx hxpy hxexe => ?_, rfl⟩
  · simp [get_command, hpy, get_python_command, hp]
  · simp [get_command, hpy, get_python_command, hp, hp3]
  · have h1 := hnone "python" (by simp)
    have h2 := hnone "python3" (by simp)
    simp [get_command, hpy, get_python_command, h1, h2]
  · rcases hor with h | h <;> simp [get_command, h, get_exe_command]
  · simp [get_command, hx, if_neg hxpy, if_neg hxexe]

/-- Witness for C9: concrete extension and search-path oracles covering the
interpreter-found, interpreter-missing, no-extension and unsupported
cases. -/
theorem get_command_resolution_witness :
    (get_command extPy whichSome "/cwd" "prog.py").1
      = .ok ⟨"/usr/bin/python", ["prog.py"], some "/cwd"⟩
    ∧ (get_command extPy whichNone "/cwd" "prog.py").1
      = .error "cannot find a python intepreter!"
    ∧ (get_command extNone whichNone "/cwd" "prog").1 = .ok ⟨"prog", [], none⟩
    ∧ (get_command extCpp whichNone "/cwd" "prog.cpp").1
      = .error ("unsupported file type " ++ "cpp") :=
  ⟨((get_command_resolution extPy whichSome "/cwd" "prog.py").1 rfl).1
      "/usr/bin/python" rfl,
   ((get_command_resolution extPy whichNone "/cwd" "prog.py").1 rfl).2.2 (by decide),
   (get_command_resolution extNone whichNone "/cwd" "prog").2.1 (Or.inl rfl),
   (get_command_resolution extCpp whichNone "/cwd" "prog.cpp").2.2.1 "cpp" rfl
     (by decide) (by decide)⟩

end Compdiff
